import Mathlib

/-!
Shallow embedding of `great_expectations/execution_engine/split_and_sample/
polars_data_splitter.py` (class `PolarsDataSplitter`), together with the
helpers of its base class `DataSplitter` that it calls; those helpers are not
part of the excerpted sources and are modelled from the spec where noted.

Modelling conventions:
* A polars dataframe is a list of rows; a row is an association list from
  column names to values.  Series extraction `df[c]` fails with
  `columnNotFound` when a row lacks the column, as polars raises
  `ColumnNotFoundError`; row order is preserved by filtering.
* Python integers are `Int`.  `x % m` is Python's floored modulus
  (`Int.fmod`, sign of the divisor); `int(x / d)` is modelled as exact
  truncating division (`Int.div`), i.e. rounding of the intermediate float
  true division is ignored.
* Python exceptions are the `PyError` type; fallible operations return
  `Except PyError _`.  Evaluation order of the Python source (which
  subexpression raises first) is mirrored by the monadic sequencing.
* Cross-type `==` in Python returns `False`; equality of `Value` does the
  same across constructors.
* Cryptographic digests are abstracted to an explicit injective stand-in
  (`hexdigest`); the verified properties concern hash-name resolution and
  suffix slicing, neither of which depends on digest contents.
-/

namespace PolarsSplit

/-- A cell value of a dataframe: an integer, a string, or a datetime
(of which only the year/month/day parts are modelled). -/
inductive Value where
  | int (i : Int)
  | str (s : String)
  | date (y m d : Int)
deriving DecidableEq, Repr

/-- The Python exceptions the splitter can raise or let escape. -/
inductive PyError where
  | zeroDivision
  | typeError
  | keyError (k : String)
  | columnNotFound (c : String)
  | valueError (msg : String)
  | executionEngineError (msg : String)
  | invalidDatePart (name : String)
deriving DecidableEq, Repr

/-- A dataframe row: association list from column name to value. -/
abbrev Row := List (String × Value)

/-- A polars dataframe: a list of rows. -/
abbrev DataFrame := List Row

/-- First binding of a key in an association list (Python `dict` lookup). -/
def alookup {α : Type} : List (String × α) → String → Option α
  | [], _ => none
  | (k, v) :: rest, key => if k = key then some v else alookup rest key

/-- Python `d[k]`: raises `KeyError` when the key is absent. -/
def dictGet {α : Type} (d : List (String × α)) (k : String) : Except PyError α :=
  match alookup d k with
  | some v => Except.ok v
  | none => Except.error (PyError.keyError k)

/-- The value a row holds in a column, when present. -/
def lookupCol (r : Row) (c : String) : Option Value :=
  alookup r c

/-- Series extraction `df[c]`: the column's values in row order, or polars'
`ColumnNotFoundError` at the first row lacking the column. -/
def getSeries : DataFrame → String → Except PyError (List Value)
  | [], _ => Except.ok []
  | r :: rs, c =>
    match lookupCol r c with
    | none => Except.error (PyError.columnNotFound c)
    | some v => (getSeries rs c).map (fun vs => v :: vs)

/-- Boolean-mask row selection `df[mask]`. -/
def maskFilter : DataFrame → List Bool → DataFrame
  | r :: rs, b :: bs => if b then r :: maskFilter rs bs else maskFilter rs bs
  | _, _ => []

/-- Python `x % m` for integers (floored modulus, sign of the divisor);
only meaningful for `m ≠ 0`, the caller models `ZeroDivisionError`. -/
def pymod (i m : Int) : Int :=
  Int.fmod i m

/-- Python `int(x / d)` for integers: true division truncated toward zero,
modelled exactly (float rounding ignored); only used with `d ≠ 0`. -/
def pyTruncDiv (i d : Int) : Int :=
  Int.tdiv i d

/-- Python truthiness of a cell value: `0` and `""` are falsy, a datetime is
always truthy. -/
def isFalsy : Value → Bool
  | Value.int i => i = 0
  | Value.str s => s = ""
  | Value.date _ _ _ => false

/-- Zero-padded two-digit rendering of a (small, nonnegative) integer, as
Python's datetime formatting uses. -/
def pad2 (i : Int) : String :=
  if i < 10 ∧ 0 ≤ i then "0" ++ toString i else toString i

/-- Python `str(x)` for the modelled values (`str(datetime(y,m,d))` is
`"y-mm-dd 00:00:00"`). -/
def pyStr : Value → String
  | Value.int i => toString i
  | Value.str s => s
  | Value.date y m d =>
      toString y ++ "-" ++ pad2 m ++ "-" ++ pad2 d ++ " 00:00:00"

/-- Python `s[start:]` slicing with the usual negative-index convention. -/
def pySliceFrom (s : String) (start : Int) : String :=
  let st : Int := if start < 0 then max 0 ((s.length : Int) + start) else start
  s.drop st.toNat

/-- Modelled from the spec: the supported date-part enumeration of the base
class `DataSplitter` (not among the excerpted sources); the spec names
"YEAR, MONTH, DAY, and similar calendar granularities". -/
inductive DatePart where
  | year
  | month
  | day
deriving DecidableEq, Repr

/-- The string value of a date part (Python `DatePart.YEAR.value == "year"`). -/
def DatePart.val : DatePart → String
  | DatePart.year => "year"
  | DatePart.month => "month"
  | DatePart.day => "day"

/-- An element of the `date_parts` argument: either an enum member or its
case-insensitive string representation. -/
inductive DatePartArg where
  | enumPart (p : DatePart)
  | strPart (s : String)
deriving DecidableEq, Repr

/-- Python `s.lower()` (character-wise lowering, as the ASCII date-part
names need). -/
def pyLower (s : String) : String :=
  String.mk (s.data.map Char.toLower)

/-- Modelled from the spec: case-insensitive lookup of a string in the
date-part enumeration ("normalize date-part identifiers (case-insensitive
strings → canonical enum)"). -/
def parseDatePart (s : String) : Option DatePart :=
  if pyLower s = "year" then some DatePart.year
  else if pyLower s = "month" then some DatePart.month
  else if pyLower s = "day" then some DatePart.day
  else none

/-- The first element of `date_parts` that is a string naming no member of
the enumeration, if any. -/
def firstInvalidDatePart : List DatePartArg → Option String
  | [] => none
  | DatePartArg.enumPart _ :: rest => firstInvalidDatePart rest
  | DatePartArg.strPart s :: rest =>
    match parseDatePart s with
    | some _ => firstInvalidDatePart rest
    | none => some s

/-- Modelled from the spec: `DataSplitter._validate_date_parts` — "validate
requested date parts are members of the supported enumeration — fail fast
otherwise". -/
def validateDateParts (date_parts : List DatePartArg) : Except PyError Unit :=
  match firstInvalidDatePart date_parts with
  | some s => Except.error (PyError.invalidDatePart s)
  | none => Except.ok ()

/-- Modelled from the spec: `DataSplitter._convert_date_parts` — strings are
normalized case-insensitively to the canonical enum. -/
def convertDateParts : List DatePartArg → Except PyError (List DatePart)
  | [] => Except.ok []
  | DatePartArg.enumPart p :: rest =>
    (convertDateParts rest).map (fun ps => p :: ps)
  | DatePartArg.strPart s :: rest =>
    match parseDatePart s with
    | some p => (convertDateParts rest).map (fun ps => p :: ps)
    | none => Except.error (PyError.invalidDatePart s)

/-- The batch-identifier entry for the split column in a date-part split:
either a datetime value or a nested mapping from date-part name to integer. -/
inductive ColumnBatchId where
  | dtVal (y m d : Int)
  | partsMap (m : List (String × Int))
deriving DecidableEq, Repr

/-- Extract one date part of a datetime value `(y, m, d)`. -/
def dtExtract : DatePart → Int → Int → Int → Int
  | DatePart.year, y, _, _ => y
  | DatePart.month, _, m, _ => m
  | DatePart.day, _, _, d => d

/-- Modelled from the spec:
`DataSplitter._convert_datetime_batch_identifiers_to_date_parts_dict` —
"resolve, per requested date part, the target integer either from a nested
per-part mapping in the batch identifiers or by parsing a single datetime
value and extracting each part".  A part absent from the nested mapping is a
`KeyError`, raised at the first such part in list order. -/
def datePartsDict (cbi : ColumnBatchId) :
    List DatePart → Except PyError (List (DatePart × Int))
  | [] => Except.ok []
  | p :: ps =>
    match cbi with
    | ColumnBatchId.dtVal y m d =>
      (datePartsDict cbi ps).map (fun rest => (p, dtExtract p y m d) :: rest)
    | ColumnBatchId.partsMap mp =>
      match alookup mp p.val with
      | some i => (datePartsDict cbi ps).map (fun rest => (p, i) :: rest)
      | none => Except.error (PyError.keyError p.val)

/-- One cell of a date-part comparison
`getattr(df[column_name].dt, date_part)() == date_part_value`: polars' `.dt`
accessor fails on a non-datetime value. -/
def dtCell (p : DatePart) (t : Int) : Value → Except PyError Bool
  | Value.date y m d => Except.ok (decide (dtExtract p y m d = t))
  | _ => Except.error PyError.typeError

/-- One date-part equality filter over the dataframe,
`df = df[getattr(df[column_name].dt, date_part)() == date_part_value]`. -/
def dtPartFilter (df : DataFrame) (column_name : String) (p : DatePart)
    (t : Int) : Except PyError DataFrame := do
  let vs ← getSeries df column_name
  let mask ← vs.mapM (dtCell p t)
  Except.ok (maskFilter df mask)

/-- `PolarsDataSplitter.split_on_date_parts`: validate the requested date
parts, normalize them, read the split column's batch identifiers, resolve the
per-part target values, then apply one equality filter per date part in list
order. -/
def split_on_date_parts (df : DataFrame) (column_name : String)
    (batch_identifiers : List (String × ColumnBatchId))
    (date_parts : List DatePartArg) : Except PyError DataFrame := do
  validateDateParts date_parts
  let parts ← convertDateParts date_parts
  let column_batch_identifiers ← dictGet batch_identifiers column_name
  let dpd ← datePartsDict column_batch_identifiers parts
  dpd.foldlM (fun acc pt => dtPartFilter acc column_name pt.1 pt.2) df

/-- `PolarsDataSplitter.split_on_year`. -/
def split_on_year (df : DataFrame) (column_name : String)
    (batch_identifiers : List (String × ColumnBatchId)) :
    Except PyError DataFrame :=
  split_on_date_parts df column_name batch_identifiers
    [DatePartArg.enumPart DatePart.year]

/-- `PolarsDataSplitter.split_on_year_and_month`. -/
def split_on_year_and_month (df : DataFrame) (column_name : String)
    (batch_identifiers : List (String × ColumnBatchId)) :
    Except PyError DataFrame :=
  split_on_date_parts df column_name batch_identifiers
    [DatePartArg.enumPart DatePart.year, DatePartArg.enumPart DatePart.month]

/-- `PolarsDataSplitter.split_on_year_and_month_and_day`. -/
def split_on_year_and_month_and_day (df : DataFrame) (column_name : String)
    (batch_identifiers : List (String × ColumnBatchId)) :
    Except PyError DataFrame :=
  split_on_date_parts df column_name batch_identifiers
    [DatePartArg.enumPart DatePart.year, DatePartArg.enumPart DatePart.month,
      DatePartArg.enumPart DatePart.day]

/-- `PolarsDataSplitter.split_on_whole_table`: the identity. -/
def split_on_whole_table (df : DataFrame) : DataFrame :=
  df

/-- `PolarsDataSplitter.split_on_column_value`:
`df[df[column_name] == batch_identifiers[column_name]]`.  The series is read
before the identifier (Python evaluates the left operand of `==` first);
row-level comparison is total, cross-type comparison is `False`. -/
def split_on_column_value (df : DataFrame) (column_name : String)
    (batch_identifiers : List (String × Value)) : Except PyError DataFrame := do
  let vs ← getSeries df column_name
  let v ← dictGet batch_identifiers column_name
  Except.ok (maskFilter df (vs.map (fun x => decide (x = v))))

/-- The row lambda of `split_on_divided_integer`:
`lambda x: int(x / divisor) == matching_divisor`; `x / 0` raises
`ZeroDivisionError`, a non-numeric `x` raises `TypeError`. -/
def dividedLambda (divisor : Int) (matching : Value) (x : Value) :
    Except PyError Bool :=
  match x with
  | Value.int i =>
    if divisor = 0 then Except.error PyError.zeroDivision
    else Except.ok (decide (Value.int (pyTruncDiv i divisor) = matching))
  | _ => Except.error PyError.typeError

/-- `PolarsDataSplitter.split_on_divided_integer`: the identifier is read
first, then the row lambda is applied over the column's series. -/
def split_on_divided_integer (df : DataFrame) (column_name : String)
    (divisor : Int) (batch_identifiers : List (String × Value)) :
    Except PyError DataFrame := do
  let matching_divisor ← dictGet batch_identifiers column_name
  let vs ← getSeries df column_name
  let mask ← vs.mapM (dividedLambda divisor matching_divisor)
  Except.ok (maskFilter df mask)

/-- The row lambda of `split_on_mod_integer`:
`lambda x: x % mod == matching_mod_value`; `x % 0` raises
`ZeroDivisionError`, a non-numeric `x` raises `TypeError`. -/
def modLambda (mod : Int) (matching : Value) (x : Value) :
    Except PyError Bool :=
  match x with
  | Value.int i =>
    if mod = 0 then Except.error PyError.zeroDivision
    else Except.ok (decide (Value.int (pymod i mod) = matching))
  | _ => Except.error PyError.typeError

/-- `PolarsDataSplitter.split_on_mod_integer`. -/
def split_on_mod_integer (df : DataFrame) (column_name : String)
    (mod : Int) (batch_identifiers : List (String × Value)) :
    Except PyError DataFrame := do
  let matching_mod_value ← dictGet batch_identifiers column_name
  let vs ← getSeries df column_name
  let mask ← vs.mapM (modLambda mod matching_mod_value)
  Except.ok (maskFilter df mask)

/-- The error message of `split_on_multi_column_values`, before the offending
column name. -/
def multiErrPre : String :=
  "In order for PolarsExecutionEngine to `_split_on_multi_column_values`, " ++
    "all values in column_names must also exist in batch_identifiers. "

/-- The error message of `split_on_multi_column_values`, after the offending
column name. -/
def multiErrPost : String :=
  " was not found in batch_identifiers."

/-- One equality filter `subset_df[subset_df[column_name] == value]`. -/
def filterEq (df : DataFrame) (column_name : String) (v : Value) :
    Except PyError DataFrame := do
  let vs ← getSeries df column_name
  Except.ok (maskFilter df (vs.map (fun x => decide (x = v))))

/-- `PolarsDataSplitter.split_on_multi_column_values`: walk the named columns
in order; for each, a missing or falsy batch identifier raises a `ValueError`
naming the column, and otherwise that column's equality filter narrows the
surviving rows before the next column is examined. -/
def split_on_multi_column_values (df : DataFrame) (column_names : List String)
    (batch_identifiers : List (String × Value)) : Except PyError DataFrame :=
  match column_names with
  | [] => Except.ok df
  | c :: rest =>
    match alookup batch_identifiers c with
    | none => Except.error (PyError.valueError (multiErrPre ++ c ++ multiErrPost))
    | some v =>
      if isFalsy v then
        Except.error (PyError.valueError (multiErrPre ++ c ++ multiErrPost))
      else
        match filterEq df c v with
        | Except.error e => Except.error e
        | Except.ok subset => split_on_multi_column_values subset rest batch_identifiers

/-- The attribute names of Python's `hashlib` module that name hash
constructors (the set `getattr(hashlib, name)` succeeds on). -/
def hashlibNames : List String :=
  ["md5", "sha1", "sha224", "sha256", "sha384", "sha512",
    "sha3_224", "sha3_256", "sha3_384", "sha3_512",
    "shake_128", "shake_256", "blake2b", "blake2s"]

/-- Stand-in for `hash_method(str(x).encode()).hexdigest()`: the digest is
abstracted to an injective tagging of the input by the algorithm name; the
verified properties do not depend on digest contents. -/
def hexdigest (hash_function_name : String) (s : String) : String :=
  hash_function_name ++ ":" ++ s

/-- The error message of `split_on_hashed_column`, before the offending
hash function name. -/
def hashErrPre : String :=
  "The splitting method used with SparkDFExecutionEngine has a reference " ++
    "to an invalid hash_function_name.\n" ++
    "                        Reference to "

/-- The error message of `split_on_hashed_column`, after the offending
hash function name. -/
def hashErrPost : String :=
  " cannot be found."

/-- The row lambda of `split_on_hashed_column`: hash the stringified value,
keep the last `hash_digits` hex characters, and compare with
`batch_identifiers["hash_value"]` (looked up inside the lambda, so a missing
key raises only when a row is processed). -/
def hashedLambda (hash_function_name : String) (hash_digits : Int)
    (batch_identifiers : List (String × Value)) (x : Value) :
    Except PyError Bool := do
  let hv ← dictGet batch_identifiers "hash_value"
  Except.ok (decide (Value.str
    (pySliceFrom (hexdigest hash_function_name (pyStr x)) (-1 * hash_digits)) = hv))

/-- `PolarsDataSplitter.split_on_hashed_column`: resolve the hash constructor
by name first — an unknown name raises `ExecutionEngineError` naming it —
then apply the row lambda over the column's series. -/
def split_on_hashed_column (df : DataFrame) (column_name : String)
    (hash_digits : Int) (batch_identifiers : List (String × Value))
    (hash_function_name : String := "md5") : Except PyError DataFrame :=
  if hashlibNames.contains hash_function_name then do
    let vs ← getSeries df column_name
    let mask ← vs.mapM (hashedLambda hash_function_name hash_digits batch_identifiers)
    Except.ok (maskFilter df mask)
  else
    Except.error (PyError.executionEngineError
      (hashErrPre ++ hash_function_name ++ hashErrPost))

/-- The row-level view of a column predicate: a row passes when it holds the
column and its value satisfies the predicate. -/
def rowPred (c : String) (p : Value → Bool) (r : Row) : Bool :=
  match lookupCol r c with
  | some v => p v
  | none => false

/-- The pure predicate `split_on_mod_integer` filters by, for an integer
identifier value `v`. -/
def modPred (c : String) (m v : Int) (r : Row) : Bool :=
  rowPred c (fun x =>
    match x with
    | Value.int i => decide (pymod i m = v)
    | _ => false) r

/-- The pure predicate `split_on_divided_integer` filters by, for an integer
identifier value `q`. -/
def divPred (c : String) (d q : Int) (r : Row) : Bool :=
  rowPred c (fun x =>
    match x with
    | Value.int i => decide (pyTruncDiv i d = q)
    | _ => false) r

/-- The pure predicate one date-part filter pass applies. -/
def dpRowPred (c : String) (p : DatePart) (t : Int) (r : Row) : Bool :=
  rowPred c (fun x =>
    match x with
    | Value.date y m d => decide (dtExtract p y m d = t)
    | _ => false) r

/-- The runtime type of a cell value. -/
inductive ValueTy where
  | intTy
  | strTy
  | dateTy
deriving DecidableEq, Repr

/-- Type tag of a value. -/
def valueTy : Value → ValueTy
  | Value.int _ => ValueTy.intTy
  | Value.str _ => ValueTy.strTy
  | Value.date _ _ _ => ValueTy.dateTy

/-- Replace every valid string date part by its canonical enum member,
leaving everything else unchanged. -/
def normalizeDatePartArgs : List DatePartArg → List DatePartArg :=
  List.map (fun a =>
    match a with
    | DatePartArg.strPart s =>
      match parseDatePart s with
      | some p => DatePartArg.enumPart p
      | none => a
    | DatePartArg.enumPart _ => a)

/-- Stated from the claim's words, for comparison with the source function:
`split_on_hashed_column` with the row's ENTIRE hex digest compared against
`batch_identifiers["hash_value"]` (no suffix slicing). -/
def split_on_hashed_column_full (df : DataFrame) (column_name : String)
    (batch_identifiers : List (String × Value)) (hash_function_name : String) :
    Except PyError DataFrame :=
  if hashlibNames.contains hash_function_name then do
    let vs ← getSeries df column_name
    let mask ← vs.mapM (fun x => do
      let hv ← dictGet batch_identifiers "hash_value"
      Except.ok (decide (Value.str (hexdigest hash_function_name (pyStr x)) = hv)))
    Except.ok (maskFilter df mask)
  else
    Except.error (PyError.executionEngineError
      (hashErrPre ++ hash_function_name ++ hashErrPost))

/-! ### Basic lemmas about the dataframe primitives -/

theorem maskFilter_all_false (df : DataFrame) (mask : List Bool)
    (h : ∀ b ∈ mask, b = false) : maskFilter df mask = [] := by
  induction df generalizing mask with
  | nil => cases mask <;> rfl
  | cons r rs ih =>
    cases mask with
    | nil => rfl
    | cons b bs =>
      have hb := h b (List.mem_cons_self b bs)
      subst hb
      simpa [maskFilter] using ih bs (fun x hx => h x (List.mem_cons_of_mem _ hx))

theorem getSeries_ok_forall₂ (df : DataFrame) (c : String) (vs : List Value)
    (h : getSeries df c = Except.ok vs) :
    List.Forall₂ (fun r v => lookupCol r c = some v) df vs := by
  induction df generalizing vs with
  | nil =>
    simp only [getSeries, Except.ok.injEq] at h
    subst h
    exact List.Forall₂.nil
  | cons r rs ih =>
    simp only [getSeries] at h
    cases hl : lookupCol r c with
    | none => rw [hl] at h; exact absurd h (by simp)
    | some v =>
      rw [hl] at h
      cases hrs : getSeries rs c with
      | error e => rw [hrs] at h; exact absurd h (by simp [Except.map])
      | ok vs' =>
        rw [hrs] at h
        simp only [Except.map, Except.ok.injEq] at h
        subst h
        exact List.Forall₂.cons hl (ih vs' hrs)

theorem seriesMask_ok (c : String) (f : Value → Except PyError Bool)
    (p : Value → Bool) (df : DataFrame)
    (h : ∀ r ∈ df, ∃ v, lookupCol r c = some v ∧ f v = Except.ok (p v)) :
    ∃ vs mask, getSeries df c = Except.ok vs ∧ vs.mapM f = Except.ok mask ∧
      maskFilter df mask = df.filter (rowPred c p) := by
  induction df with
  | nil => exact ⟨[], [], rfl, rfl, rfl⟩
  | cons r rs ih =>
    obtain ⟨v, hv, hfv⟩ := h r (List.mem_cons_self r rs)
    obtain ⟨vs, mask, hvs, hmask, hmf⟩ :=
      ih (fun x hx => h x (List.mem_cons_of_mem _ hx))
    refine ⟨v :: vs, p v :: mask, ?_, ?_, ?_⟩
    · simp [getSeries, hv, hvs, Except.map]
    · rw [List.mapM_cons, hfv, hmask]
      rfl
    · have hr : rowPred c p r = p v := by simp [rowPred, hv]
      rw [List.filter_cons, hr]
      cases hpv : p v <;> simp [maskFilter, hmf]

/-! ### Characterizations of the integer splits -/

theorem split_on_mod_integer_ok (df : DataFrame) (c : String) (m v : Int)
    (ids : List (String × Value)) (hm : m ≠ 0)
    (hlk : alookup ids c = some (Value.int v))
    (h : ∀ r ∈ df, ∃ i, lookupCol r c = some (Value.int i)) :
    split_on_mod_integer df c m ids = Except.ok (df.filter (modPred c m v)) := by
  obtain ⟨vs, mask, hvs, hmask, hmf⟩ :=
    seriesMask_ok c (modLambda m (Value.int v))
      (fun x =>
        match x with
        | Value.int i => decide (pymod i m = v)
        | _ => false) df
      (fun r hr => by
        obtain ⟨i, hi⟩ := h r hr
        exact ⟨Value.int i, hi, by simp [modLambda, hm]⟩)
  simp only [split_on_mod_integer, dictGet, hlk, hvs, hmask, bind, Except.bind]
  rw [hmf]
  rfl

theorem split_on_divided_integer_ok (df : DataFrame) (c : String) (d q : Int)
    (ids : List (String × Value)) (hd : d ≠ 0)
    (hlk : alookup ids c = some (Value.int q))
    (h : ∀ r ∈ df, ∃ i, lookupCol r c = some (Value.int i)) :
    split_on_divided_integer df c d ids =
      Except.ok (df.filter (divPred c d q)) := by
  obtain ⟨vs, mask, hvs, hmask, hmf⟩ :=
    seriesMask_ok c (dividedLambda d (Value.int q))
      (fun x =>
        match x with
        | Value.int i => decide (pyTruncDiv i d = q)
        | _ => false) df
      (fun r hr => by
        obtain ⟨i, hi⟩ := h r hr
        exact ⟨Value.int i, hi, by simp [dividedLambda, hd]⟩)
  simp only [split_on_divided_integer, dictGet, hlk, hvs, hmask, bind, Except.bind]
  rw [hmf]
  rfl

theorem modPred_true_iff (c : String) (m v : Int) (r : Row) :
    modPred c m v r = true ↔
      ∃ i, lookupCol r c = some (Value.int i) ∧ pymod i m = v := by
  unfold modPred rowPred
  cases hl : lookupCol r c with
  | none => simp
  | some x => cases x <;> simp

theorem divPred_true_iff (c : String) (d q : Int) (r : Row) :
    divPred c d q r = true ↔
      ∃ i, lookupCol r c = some (Value.int i) ∧ pyTruncDiv i d = q := by
  unfold divPred rowPred
  cases hl : lookupCol r c with
  | none => simp
  | some x => cases x <;> simp

theorem sum_length_filter_modPred (df : DataFrame) (c : String) (m : Int)
    (hm : 0 < m)
    (h : ∀ r ∈ df, ∃ i, lookupCol r c = some (Value.int i)) :
    ∑ v ∈ Finset.range m.toNat,
      (df.filter (modPred c m (v : Int))).length = df.length := by
  induction df with
  | nil => simp
  | cons r rs ih =>
    obtain ⟨i, hi⟩ := h r (List.mem_cons_self r rs)
    have hrs := ih (fun x hx => h x (List.mem_cons_of_mem _ hx))
    have hstep : ∀ v ∈ Finset.range m.toNat,
        (List.filter (modPred c m (v : Int)) (r :: rs)).length
          = (if v = (pymod i m).toNat then 1 else 0)
            + (List.filter (modPred c m (v : Int)) rs).length := by
      intro v _
      have hpr : modPred c m (v : Int) r = decide (pymod i m = (v : Int)) := by
        simp [modPred, rowPred, hi]
      rw [List.filter_cons, hpr]
      have hnn : 0 ≤ pymod i m := Int.fmod_nonneg' i hm
      by_cases hv : v = (pymod i m).toNat
      · subst hv
        rw [Int.toNat_of_nonneg hnn]
        simp [Nat.add_comm]
      · have hne : pymod i m ≠ (v : Int) := by
          intro heq
          exact hv (by rw [heq, Int.toNat_ofNat])
        simp [hne, hv]
    rw [Finset.sum_congr rfl hstep, Finset.sum_add_distrib, hrs,
      Finset.sum_ite_eq' (Finset.range m.toNat) ((pymod i m).toNat) (fun _ => 1)]
    have hmem : (pymod i m).toNat ∈ Finset.range m.toNat := by
      rw [Finset.mem_range]
      exact (Int.toNat_lt_toNat hm).mpr (Int.fmod_lt_of_pos i hm)
    rw [if_pos hmem]
    simp [List.length_cons, Nat.add_comm]

theorem getSeries_ok_of_ints (df : DataFrame) (c : String)
    (h : ∀ r ∈ df, ∃ i, lookupCol r c = some (Value.int i)) :
    ∃ vs, getSeries df c = Except.ok vs := by
  induction df with
  | nil => exact ⟨[], rfl⟩
  | cons r rs ih =>
    obtain ⟨i, hi⟩ := h r (List.mem_cons_self r rs)
    obtain ⟨vs, hvs⟩ := ih (fun x hx => h x (List.mem_cons_of_mem _ hx))
    exact ⟨Value.int i :: vs, by simp [getSeries, hi, hvs, Except.map]⟩

/-! ### The zero divisor / zero modulus behavior -/

theorem split_on_divided_integer_zero (df : DataFrame) (c : String)
    (ids : List (String × Value)) (w : Value)
    (hlk : alookup ids c = some w) (hne : df ≠ [])
    (h : ∀ r ∈ df, ∃ i, lookupCol r c = some (Value.int i)) :
    split_on_divided_integer df c 0 ids = Except.error PyError.zeroDivision := by
  obtain ⟨vs, hvs⟩ := getSeries_ok_of_ints df c h
  cases df with
  | nil => exact absurd rfl hne
  | cons r rs =>
    obtain ⟨i, hi⟩ := h r (List.mem_cons_self r rs)
    cases getSeries_ok_forall₂ _ _ _ hvs with
    | cons hrel hrest =>
      rename_i v vs'
      rw [hi] at hrel
      cases hrel
      simp only [split_on_divided_integer, dictGet, hlk, hvs, bind, Except.bind]
      rw [List.mapM_cons]
      rfl

theorem split_on_mod_integer_zero (df : DataFrame) (c : String)
    (ids : List (String × Value)) (w : Value)
    (hlk : alookup ids c = some w) (hne : df ≠ [])
    (h : ∀ r ∈ df, ∃ i, lookupCol r c = some (Value.int i)) :
    split_on_mod_integer df c 0 ids = Except.error PyError.zeroDivision := by
  obtain ⟨vs, hvs⟩ := getSeries_ok_of_ints df c h
  cases df with
  | nil => exact absurd rfl hne
  | cons r rs =>
    obtain ⟨i, hi⟩ := h r (List.mem_cons_self r rs)
    cases getSeries_ok_forall₂ _ _ _ hvs with
    | cons hrel hrest =>
      rename_i v vs'
      rw [hi] at hrel
      cases hrel
      simp only [split_on_mod_integer, dictGet, hlk, hvs, bind, Except.bind]
      rw [List.mapM_cons]
      rfl

/-! ### The multi-column split -/

theorem split_on_multi_column_values_append (pre rest : List String)
    (df s : DataFrame) (ids : List (String × Value))
    (hpre : split_on_multi_column_values df pre ids = Except.ok s) :
    split_on_multi_column_values df (pre ++ rest) ids =
      split_on_multi_column_values s rest ids := by
  induction pre generalizing df with
  | nil =>
    obtain rfl : df = s := by simpa [split_on_multi_column_values] using hpre
    rfl
  | cons c cs ih =>
    simp only [split_on_multi_column_values, List.cons_append] at hpre ⊢
    split at hpre
    · exact absurd hpre (by simp)
    · next v hlk =>
      split at hpre
      · exact absurd hpre (by simp)
      · next hf =>
        split at hpre
        · exact absurd hpre (by simp)
        · next sub hfe =>
          rw [if_neg hf]
          exact ih sub hpre

theorem split_on_multi_column_values_missing_head (df : DataFrame) (c : String)
    (rest : List String) (ids : List (String × Value))
    (hc : alookup ids c = none ∨ ∃ v, alookup ids c = some v ∧ isFalsy v = true) :
    split_on_multi_column_values df (c :: rest) ids =
      Except.error (PyError.valueError (multiErrPre ++ c ++ multiErrPost)) := by
  rcases hc with hnone | ⟨v, hv, hf⟩
  · simp [split_on_multi_column_values, hnone]
  · simp [split_on_multi_column_values, hv, hf]

/-! ### The date-part split -/

theorem forall₂_exists_right {α β : Type} {R : α → β → Prop} {xs : List α}
    {ys : List β} (h : List.Forall₂ R xs ys) (x : α) (hx : x ∈ xs) :
    ∃ y ∈ ys, R x y := by
  induction h with
  | nil => cases hx
  | cons hrel hrest ih =>
    rcases List.mem_cons.mp hx with heq | hmem
    · subst heq
      exact ⟨_, List.mem_cons_self _ _, hrel⟩
    · obtain ⟨y, hy, hRy⟩ := ih hmem
      exact ⟨y, List.mem_cons_of_mem _ hy, hRy⟩

theorem mapM_dtCell_ok_dates (p : DatePart) (t : Int) (vs : List Value)
    (mask : List Bool) (h : vs.mapM (dtCell p t) = Except.ok mask) :
    ∀ v ∈ vs, ∃ y m d, v = Value.date y m d := by
  induction vs generalizing mask with
  | nil => intro v hv; cases hv
  | cons x xs ih =>
    rw [List.mapM_cons] at h
    cases hx : dtCell p t x with
    | error e => rw [hx] at h; exact absurd h (by simp [bind, Except.bind])
    | ok b =>
      rw [hx] at h
      cases hxs : xs.mapM (dtCell p t) with
      | error e => rw [hxs] at h; exact absurd h (by simp [bind, Except.bind])
      | ok bs =>
        intro v hv
        rcases List.mem_cons.mp hv with heq | hmem
        · subst heq
          cases v with
          | date y m d => exact ⟨y, m, d, rfl⟩
          | int i => exact absurd hx (by simp [dtCell])
          | str s => exact absurd hx (by simp [dtCell])
        · exact ih bs hxs v hmem

theorem dtPartFilter_ok_of_dates (df : DataFrame) (c : String) (p : DatePart)
    (t : Int)
    (h : ∀ r ∈ df, ∃ y m d, lookupCol r c = some (Value.date y m d)) :
    dtPartFilter df c p t = Except.ok (df.filter (dpRowPred c p t)) := by
  obtain ⟨vs, mask, hvs, hmask, hmf⟩ :=
    seriesMask_ok c (dtCell p t)
      (fun x =>
        match x with
        | Value.date y m d => decide (dtExtract p y m d = t)
        | _ => false) df
      (fun r hr => by
        obtain ⟨y, m, d, hr'⟩ := h r hr
        exact ⟨Value.date y m d, hr', rfl⟩)
  simp only [dtPartFilter, hvs, hmask, bind, Except.bind]
  rw [hmf]
  rfl

theorem dtPartFilter_ok_dates (df : DataFrame) (c : String) (p : DatePart)
    (t : Int) (l : DataFrame) (h : dtPartFilter df c p t = Except.ok l) :
    ∀ r ∈ df, ∃ y m d, lookupCol r c = some (Value.date y m d) := by
  simp only [dtPartFilter, bind, Except.bind] at h
  split at h
  · exact absurd h (by simp)
  · next vs hvs =>
    split at h
    · exact absurd h (by simp)
    · next mask hmask =>
      intro r hr
      obtain ⟨v, hvmem, hlk⟩ :=
        forall₂_exists_right (getSeries_ok_forall₂ df c vs hvs) r hr
      obtain ⟨y, m, d, rfl⟩ := mapM_dtCell_ok_dates p t vs mask hmask v hvmem
      exact ⟨y, m, d, hlk⟩

theorem dtPartFilter_pair_comm (df : DataFrame) (c : String)
    (p q : DatePart) (t u : Int) (l : DataFrame)
    (h1 : (dtPartFilter df c p t).bind (fun d1 => dtPartFilter d1 c q u) =
      Except.ok l) :
    (dtPartFilter df c q u).bind (fun d1 => dtPartFilter d1 c p t) =
      Except.ok l := by
  cases h1a : dtPartFilter df c p t with
  | error e => rw [h1a] at h1; exact absurd h1 (by simp [Except.bind])
  | ok d1 =>
    rw [h1a] at h1
    simp only [Except.bind] at h1
    have hdf : ∀ r ∈ df, ∃ y m d, lookupCol r c = some (Value.date y m d) :=
      dtPartFilter_ok_dates df c p t d1 h1a
    have hd1 : d1 = df.filter (dpRowPred c p t) := by
      have := dtPartFilter_ok_of_dates df c p t hdf
      rw [h1a] at this
      exact (Except.ok.injEq _ _).mp this
    subst hd1
    have hsub : ∀ r ∈ df.filter (dpRowPred c p t),
        ∃ y m d, lookupCol r c = some (Value.date y m d) :=
      fun r hr => hdf r (List.mem_of_mem_filter hr)
    have hl : l = (df.filter (dpRowPred c p t)).filter (dpRowPred c q u) := by
      have := dtPartFilter_ok_of_dates _ c q u hsub
      rw [h1] at this
      exact (Except.ok.injEq _ _).mp this
    subst hl
    rw [dtPartFilter_ok_of_dates df c q u hdf]
    simp only [Except.bind]
    rw [dtPartFilter_ok_of_dates _ c p t
      (fun r hr => hdf r (List.mem_of_mem_filter hr))]
    rw [List.filter_comm]

theorem foldlM_pair_filters (df : DataFrame) (c : String)
    (a b : DatePart × Int) :
    List.foldlM (fun acc pt => dtPartFilter acc c pt.1 pt.2) df [a, b] =
      (dtPartFilter df c a.1 a.2).bind (fun d1 => dtPartFilter d1 c b.1 b.2) := by
  cases h1 : dtPartFilter df c a.1 a.2 with
  | error e => simp [List.foldlM, h1, Except.bind, bind]
  | ok d1 =>
    cases h2 : dtPartFilter d1 c b.1 b.2 <;>
      simp [List.foldlM, h1, h2, Except.bind, bind, pure, Except.pure]

theorem split_on_date_parts_pair (df : DataFrame) (c : String)
    (ids : List (String × ColumnBatchId)) (p q : DatePart) :
    split_on_date_parts df c ids
        [DatePartArg.enumPart p, DatePartArg.enumPart q] =
      (dictGet ids c).bind (fun cbi =>
        (datePartsDict cbi [p, q]).bind (fun dpd =>
          dpd.foldlM (fun acc pt => dtPartFilter acc c pt.1 pt.2) df)) := by
  rfl

/-! ### Validation and normalization of date-part arguments -/

theorem firstInvalid_normalizeArgs (parts : List DatePartArg) :
    firstInvalidDatePart (normalizeDatePartArgs parts) =
      firstInvalidDatePart parts := by
  induction parts with
  | nil => rfl
  | cons a rest ih =>
    cases a with
    | enumPart p =>
      simpa [normalizeDatePartArgs, firstInvalidDatePart] using ih
    | strPart s =>
      cases hs : parseDatePart s with
      | some p =>
        simpa [normalizeDatePartArgs, firstInvalidDatePart, hs] using ih
      | none =>
        simp [normalizeDatePartArgs, firstInvalidDatePart, hs]

theorem convertDateParts_normalizeArgs (parts : List DatePartArg) :
    convertDateParts (normalizeDatePartArgs parts) = convertDateParts parts := by
  induction parts with
  | nil => rfl
  | cons a rest ih =>
    cases a with
    | enumPart p =>
      simpa [normalizeDatePartArgs, convertDateParts] using congrArg (Except.map (List.cons p)) ih
    | strPart s =>
      cases hs : parseDatePart s with
      | some p =>
        simpa [normalizeDatePartArgs, convertDateParts, hs] using congrArg (Except.map (List.cons p)) ih
      | none =>
        simp [normalizeDatePartArgs, convertDateParts, hs]

theorem split_on_date_parts_invalid (df : DataFrame) (c : String)
    (ids : List (String × ColumnBatchId)) (parts : List DatePartArg)
    (s : String) (h : firstInvalidDatePart parts = some s) :
    split_on_date_parts df c ids parts =
      Except.error (PyError.invalidDatePart s) := by
  simp only [split_on_date_parts, validateDateParts, h]
  rfl

theorem split_on_date_parts_normalize (df : DataFrame) (c : String)
    (ids : List (String × ColumnBatchId)) (parts : List DatePartArg) :
    split_on_date_parts df c ids (normalizeDatePartArgs parts) =
      split_on_date_parts df c ids parts := by
  simp only [split_on_date_parts, validateDateParts, firstInvalid_normalizeArgs,
    convertDateParts_normalizeArgs]

/-! ### Values of distinct runtime type are never equal -/

theorem ne_of_valueTy_ne (x v : Value) (h : valueTy x ≠ valueTy v) : x ≠ v :=
  fun heq => h (congrArg valueTy heq)

theorem string_drop_zero (s : String) : s.drop 0 = s := by
  rw [String.drop_eq, List.drop_zero]

/-! ### The claims -/

/-- C1, counterexample: on a one-row integer column, `split_on_divided_integer`
with `divisor = 0` and `split_on_mod_integer` with `mod = 0` surface the raw
`ZeroDivisionError` of the row-level arithmetic — not a deliberate,
descriptive configuration/domain exception, contrary to the claim. -/
theorem zero_divisor_raises_raw_fault :
    split_on_divided_integer [[("a", Value.int 1)]] "a" 0 [("a", Value.int 0)] =
        Except.error PyError.zeroDivision
      ∧ split_on_mod_integer [[("a", Value.int 1)]] "a" 0 [("a", Value.int 0)] =
        Except.error PyError.zeroDivision :=
  ⟨rfl, rfl⟩

/-- C1, amended: the splitters make no zero-divisor check at all.  With
`divisor = 0` (resp. `mod = 0`), once the batch identifier for the column is
present, a nonempty integer column always surfaces the raw
`ZeroDivisionError` raised by the first row's arithmetic. -/
theorem zero_divisor_propagates_zero_division (df : DataFrame) (c : String)
    (ids : List (String × Value)) (w : Value)
    (hlk : alookup ids c = some w) (hne : df ≠ [])
    (h : ∀ r ∈ df, ∃ i, lookupCol r c = some (Value.int i)) :
    split_on_divided_integer df c 0 ids = Except.error PyError.zeroDivision
      ∧ split_on_mod_integer df c 0 ids = Except.error PyError.zeroDivision :=
  ⟨split_on_divided_integer_zero df c ids w hlk hne h,
    split_on_mod_integer_zero df c ids w hlk hne h⟩

/-- C1, witness for the amended theorem at a concrete input. -/
theorem zero_divisor_propagates_zero_division_witness :
    split_on_divided_integer [[("b", Value.int 7)]] "b" 0 [("b", Value.int 2)] =
        Except.error PyError.zeroDivision
      ∧ split_on_mod_integer [[("b", Value.int 7)]] "b" 0 [("b", Value.int 2)] =
        Except.error PyError.zeroDivision :=
  zero_divisor_propagates_zero_division [[("b", Value.int 7)]] "b"
    [("b", Value.int 2)] (Value.int 2) rfl (by simp)
    (fun r hr => by
      rw [List.mem_singleton.mp hr]
      exact ⟨7, rfl⟩)

/-- C2, counterexample: with `column_names = ["a", "b"]`, a dataframe whose
rows lack column `"a"`, and batch identifiers containing `"a"` but not
`"b"`, the call fails with polars' column-not-found error from filtering on
`"a"` — not with the missing-identifier `ValueError` naming `"b"` — even
though `"b"` is missing from the batch identifiers.  The missing-identifier
check is therefore not performed for all columns before filtering begins. -/
theorem multi_column_check_not_before_filtering :
    split_on_multi_column_values [[("b", Value.int 1)]] ["a", "b"]
        [("a", Value.int 7)] = Except.error (PyError.columnNotFound "a")
      ∧ alookup [("a", Value.int 7)] "b" = none :=
  ⟨rfl, rfl⟩

/-- C2, amended: the check is interleaved with filtering.  Columns are walked
in list order; a column whose batch identifier is missing or falsy raises a
`ValueError` naming that column, but only once it is reached — after the
equality filters of all the preceding columns have already been applied. -/
theorem multi_column_missing_identifier_error (df s : DataFrame)
    (pre post : List String) (c : String) (ids : List (String × Value))
    (hpre : split_on_multi_column_values df pre ids = Except.ok s)
    (hc : alookup ids c = none ∨ ∃ v, alookup ids c = some v ∧ isFalsy v = true) :
    split_on_multi_column_values df (pre ++ c :: post) ids =
      Except.error (PyError.valueError (multiErrPre ++ c ++ multiErrPost)) := by
  rw [split_on_multi_column_values_append pre (c :: post) df s ids hpre]
  exact split_on_multi_column_values_missing_head s c post ids hc

/-- C2, witness for the amended theorem at a concrete input. -/
theorem multi_column_missing_identifier_error_witness :
    split_on_multi_column_values [[("a", Value.int 1), ("b", Value.int 2)]]
        ["a", "b"] [("a", Value.int 1)] =
      Except.error (PyError.valueError (multiErrPre ++ "b" ++ multiErrPost)) :=
  multi_column_missing_identifier_error
    [[("a", Value.int 1), ("b", Value.int 2)]]
    [[("a", Value.int 1), ("b", Value.int 2)]]
    ["a"] [] "b" [("a", Value.int 1)] rfl (Or.inl rfl)

/-- C3: an unknown `hash_function_name` makes `split_on_hashed_column` raise
`ExecutionEngineError` with a message containing the offending name, and it
does so for every dataframe, before any row is hashed (the result does not
depend on the dataframe or the identifiers); no `AttributeError` escapes. -/
theorem hashed_column_unknown_hash_error (df : DataFrame) (c : String)
    (hash_digits : Int) (ids : List (String × Value)) (fn : String)
    (h : hashlibNames.contains fn = false) :
    split_on_hashed_column df c hash_digits ids fn =
      Except.error (PyError.executionEngineError
        (hashErrPre ++ fn ++ hashErrPost)) := by
  unfold split_on_hashed_column
  rw [h]
  rfl

/-- C3, witness at a concrete unknown hash name. -/
theorem hashed_column_unknown_hash_error_witness :
    split_on_hashed_column [[("a", Value.int 1)]] "a" 2 [] "notahash" =
      Except.error (PyError.executionEngineError
        (hashErrPre ++ "notahash" ++ hashErrPost)) :=
  hashed_column_unknown_hash_error [[("a", Value.int 1)]] "a" 2 [] "notahash"
    (by decide)

/-- C4: `split_on_date_parts` fails fast on an invalid date-part name — the
result is the validation error for the first invalid name, whatever the
dataframe and batch identifiers, so before any row is examined — and valid
case-insensitive string date parts are normalized to the canonical enum:
normalizing the argument list never changes the result. -/
theorem date_parts_validated_and_normalized (df : DataFrame) (c : String)
    (ids : List (String × ColumnBatchId)) (parts : List DatePartArg) :
    (∀ s, firstInvalidDatePart parts = some s →
      split_on_date_parts df c ids parts =
        Except.error (PyError.invalidDatePart s))
    ∧ split_on_date_parts df c ids (normalizeDatePartArgs parts) =
        split_on_date_parts df c ids parts :=
  ⟨fun s h => split_on_date_parts_invalid df c ids parts s h,
    split_on_date_parts_normalize df c ids parts⟩

/-- C4, witness: an invalid date-part name fails fast at a concrete input. -/
theorem date_parts_validated_and_normalized_witness :
    split_on_date_parts [[("d", Value.date 2021 5 1)]] "d" []
        [DatePartArg.strPart "decade"] =
      Except.error (PyError.invalidDatePart "decade") :=
  (date_parts_validated_and_normalized [[("d", Value.date 2021 5 1)]] "d" []
    [DatePartArg.strPart "decade"]).1 "decade" (by decide)

/-- C5: for a dataframe with an integer split column, `split_on_mod_integer`
with `m > 0` and identifier values `0, 1, …, m-1` partitions the rows:
each split is the filter by its residue predicate, distinct residues select
disjoint rows, the summed sizes of the `m` slices recover the dataframe's
size exactly (no row lost or duplicated), and every row lands in a slice
with residue in `[0, m)`.  Analogously for `split_on_divided_integer` with
`d > 0` as the identifier ranges over the quotients: each slice is the
filter by its quotient predicate, distinct quotients are disjoint, and every
row belongs to the slice of its own quotient. -/
theorem mod_and_divided_splits_partition (df : DataFrame) (c : String)
    (m d : Int) (hm : 0 < m) (hd : 0 < d)
    (h : ∀ r ∈ df, ∃ i, lookupCol r c = some (Value.int i)) :
    (∀ v : Int, split_on_mod_integer df c m [(c, Value.int v)] =
        Except.ok (df.filter (modPred c m v)))
    ∧ (∀ v w : Int, v ≠ w → ∀ r : Row, modPred c m v r = true →
        modPred c m w r = false)
    ∧ (∑ v ∈ Finset.range m.toNat,
        (df.filter (modPred c m (v : Int))).length = df.length)
    ∧ (∀ r ∈ df, ∃ v : Int, 0 ≤ v ∧ v < m ∧ modPred c m v r = true)
    ∧ (∀ q : Int, split_on_divided_integer df c d [(c, Value.int q)] =
        Except.ok (df.filter (divPred c d q)))
    ∧ (∀ q w : Int, q ≠ w → ∀ r : Row, divPred c d q r = true →
        divPred c d w r = false)
    ∧ (∀ r ∈ df, ∃ q : Int, divPred c d q r = true) := by
  refine ⟨?_, ?_, ?_, ?_, ?_, ?_, ?_⟩
  · intro v
    exact split_on_mod_integer_ok df c m v [(c, Value.int v)]
      (ne_of_gt hm) (by simp [alookup]) h
  · intro v w hvw r hv
    rcases (modPred_true_iff c m v r).mp hv with ⟨i, hlk, hval⟩
    cases hw : modPred c m w r
    · rfl
    · rcases (modPred_true_iff c m w r).mp hw with ⟨i', hlk', hval'⟩
      have hii : i = i' := by
        have := hlk.symm.trans hlk'
        simpa using this
      subst hii
      exact absurd (hval.symm.trans hval') hvw
  · exact sum_length_filter_modPred df c m hm h
  · intro r hr
    obtain ⟨i, hi⟩ := h r hr
    exact ⟨pymod i m, Int.fmod_nonneg' i hm, Int.fmod_lt_of_pos i hm,
      (modPred_true_iff c m (pymod i m) r).mpr ⟨i, hi, rfl⟩⟩
  · intro q
    exact split_on_divided_integer_ok df c d q [(c, Value.int q)]
      (ne_of_gt hd) (by simp [alookup]) h
  · intro q w hqw r hq
    rcases (divPred_true_iff c d q r).mp hq with ⟨i, hlk, hval⟩
    cases hw : divPred c d w r
    · rfl
    · rcases (divPred_true_iff c d w r).mp hw with ⟨i', hlk', hval'⟩
      have hii : i = i' := by
        have := hlk.symm.trans hlk'
        simpa using this
      subst hii
      exact absurd (hval.symm.trans hval') hqw
  · intro r hr
    obtain ⟨i, hi⟩ := h r hr
    exact ⟨pyTruncDiv i d, (divPred_true_iff c d (pyTruncDiv i d) r).mpr
      ⟨i, hi, rfl⟩⟩

/-- C5, witness: the partition properties at a concrete three-row dataframe,
`m = 3`, `d = 2`. -/
theorem mod_and_divided_splits_partition_witness :
    (∀ v : Int, split_on_mod_integer
        [[("a", Value.int 5)], [("a", Value.int (-3))], [("a", Value.int 12)]]
        "a" 3 [("a", Value.int v)] =
        Except.ok (List.filter (modPred "a" 3 v)
          [[("a", Value.int 5)], [("a", Value.int (-3))], [("a", Value.int 12)]]))
    ∧ (∀ v w : Int, v ≠ w → ∀ r : Row, modPred "a" 3 v r = true →
        modPred "a" 3 w r = false)
    ∧ (∑ v ∈ Finset.range (3 : Int).toNat,
        (List.filter (modPred "a" 3 (v : Int))
          [[("a", Value.int 5)], [("a", Value.int (-3))],
            [("a", Value.int 12)]]).length =
        (([[("a", Value.int 5)], [("a", Value.int (-3))],
          [("a", Value.int 12)]] : DataFrame)).length)
    ∧ (∀ r ∈ ([[("a", Value.int 5)], [("a", Value.int (-3))],
        [("a", Value.int 12)]] : DataFrame),
        ∃ v : Int, 0 ≤ v ∧ v < 3 ∧ modPred "a" 3 v r = true)
    ∧ (∀ q : Int, split_on_divided_integer
        [[("a", Value.int 5)], [("a", Value.int (-3))], [("a", Value.int 12)]]
        "a" 2 [("a", Value.int q)] =
        Except.ok (List.filter (divPred "a" 2 q)
          [[("a", Value.int 5)], [("a", Value.int (-3))], [("a", Value.int 12)]]))
    ∧ (∀ q w : Int, q ≠ w → ∀ r : Row, divPred "a" 2 q r = true →
        divPred "a" 2 w r = false)
    ∧ (∀ r ∈ ([[("a", Value.int 5)], [("a", Value.int (-3))],
        [("a", Value.int 12)]] : DataFrame),
        ∃ q : Int, divPred "a" 2 q r = true) :=
  mod_and_divided_splits_partition
    [[("a", Value.int 5)], [("a", Value.int (-3))], [("a", Value.int 12)]]
    "a" 3 2 (by decide) (by decide)
    (fun r hr => by
      simp only [List.mem_cons, List.not_mem_nil, or_false] at hr
      rcases hr with rfl | rfl | rfl
      · exact ⟨5, rfl⟩
      · exact ⟨-3, rfl⟩
      · exact ⟨12, rfl⟩)

/-- C6: on the dataset with rows `{id: 1, date: 2021-05-01}` and
`{id: 2, date: 2022-05-01}`, splitting on year and month with batch
identifiers `{date: {year: 2021, month: 5}}` returns exactly the row with
`id = 1`: the year filter and the month filter are both applied (logical
AND), and nothing else is truncated away. -/
theorem year_and_month_scenario :
    split_on_year_and_month
        [[("id", Value.int 1), ("date", Value.date 2021 5 1)],
          [("id", Value.int 2), ("date", Value.date 2022 5 1)]]
        "date"
        [("date", ColumnBatchId.partsMap [("year", 2021), ("month", 5)])] =
      Except.ok [[("id", Value.int 1), ("date", Value.date 2021 5 1)]] :=
  rfl

/-- C7: `split_on_date_parts` is commutative in the order of the supplied
date parts — `[YEAR, MONTH]` and `[MONTH, YEAR]` yield the same result
dataframe (same rows in the same order) whenever either order yields one,
for every dataframe, column name and batch identifiers. -/
theorem date_parts_order_commutative (df : DataFrame) (c : String)
    (ids : List (String × ColumnBatchId)) (l : DataFrame) :
    split_on_date_parts df c ids
        [DatePartArg.enumPart DatePart.year,
          DatePartArg.enumPart DatePart.month] = Except.ok l
      ↔ split_on_date_parts df c ids
        [DatePartArg.enumPart DatePart.month,
          DatePartArg.enumPart DatePart.year] = Except.ok l := by
  rw [split_on_date_parts_pair, split_on_date_parts_pair]
  cases hid : dictGet ids c with
  | error e => simp [Except.bind]
  | ok cbi =>
    simp only [Except.bind]
    cases cbi with
    | dtVal y m d =>
      have h1 : datePartsDict (ColumnBatchId.dtVal y m d)
          [DatePart.year, DatePart.month] =
          Except.ok [(DatePart.year, y), (DatePart.month, m)] := rfl
      have h2 : datePartsDict (ColumnBatchId.dtVal y m d)
          [DatePart.month, DatePart.year] =
          Except.ok [(DatePart.month, m), (DatePart.year, y)] := rfl
      rw [h1, h2]
      simp only [Except.bind]
      rw [foldlM_pair_filters, foldlM_pair_filters]
      exact ⟨fun hk => dtPartFilter_pair_comm df c _ _ y m l hk,
        fun hk => dtPartFilter_pair_comm df c _ _ m y l hk⟩
    | partsMap mp =>
      cases hy : alookup mp "year" with
      | none =>
        cases hmo : alookup mp "month" with
        | none =>
          simp [datePartsDict, DatePart.val, hy, hmo, Except.bind, Except.map]
        | some tm =>
          simp [datePartsDict, DatePart.val, hy, hmo, Except.bind, Except.map]
      | some ty =>
        cases hmo : alookup mp "month" with
        | none =>
          simp [datePartsDict, DatePart.val, hy, hmo, Except.bind, Except.map]
        | some tm =>
          have h1 : datePartsDict (ColumnBatchId.partsMap mp)
              [DatePart.year, DatePart.month] =
              Except.ok [(DatePart.year, ty), (DatePart.month, tm)] := by
            simp [datePartsDict, DatePart.val, hy, hmo, Except.map]
          have h2 : datePartsDict (ColumnBatchId.partsMap mp)
              [DatePart.month, DatePart.year] =
              Except.ok [(DatePart.month, tm), (DatePart.year, ty)] := by
            simp [datePartsDict, DatePart.val, hy, hmo, Except.map]
          rw [h1, h2]
          simp only [Except.bind]
          rw [foldlM_pair_filters, foldlM_pair_filters]
          exact ⟨fun hk => dtPartFilter_pair_comm df c _ _ ty tm l hk,
            fun hk => dtPartFilter_pair_comm df c _ _ tm ty l hk⟩

/-- C7, witness: both orders produce the same concrete result on a concrete
dataframe. -/
theorem date_parts_order_commutative_witness :
    split_on_date_parts
        [[("d", Value.date 2021 5 1)], [("d", Value.date 2021 6 1)]] "d"
        [("d", ColumnBatchId.partsMap [("year", 2021), ("month", 5)])]
        [DatePartArg.enumPart DatePart.month,
          DatePartArg.enumPart DatePart.year] =
      Except.ok [[("d", Value.date 2021 5 1)]] :=
  (date_parts_order_commutative
    [[("d", Value.date 2021 5 1)], [("d", Value.date 2021 6 1)]] "d"
    [("d", ColumnBatchId.partsMap [("year", 2021), ("month", 5)])]
    [[("d", Value.date 2021 5 1)]]).mp rfl

/-- C8: in `split_on_column_value`, once the column's series exists and the
batch identifier for the column is present, the call never raises — and when
the identifier's value has a runtime type different from every value in the
column (a type mismatch), the result is the empty dataframe, not an error. -/
theorem column_value_type_mismatch_empty (df : DataFrame) (c : String)
    (ids : List (String × Value)) (v : Value) (vs : List Value)
    (hlk : alookup ids c = some v) (hvs : getSeries df c = Except.ok vs) :
    (∃ l, split_on_column_value df c ids = Except.ok l)
    ∧ ((∀ x ∈ vs, valueTy x ≠ valueTy v) →
        split_on_column_value df c ids = Except.ok []) := by
  have hbase : split_on_column_value df c ids =
      Except.ok (maskFilter df (vs.map (fun x => decide (x = v)))) := by
    simp only [split_on_column_value, hvs, dictGet, hlk, bind, Except.bind]
  refine ⟨⟨_, hbase⟩, fun hty => ?_⟩
  rw [hbase, maskFilter_all_false df _ ?_]
  intro b hb
  obtain ⟨x, hx, rfl⟩ := List.mem_map.mp hb
  exact decide_eq_false (ne_of_valueTy_ne x v (hty x hx))

/-- C8, witness: an integer column compared against a string identifier
value yields the empty dataframe and no error. -/
theorem column_value_type_mismatch_empty_witness :
    (∃ l, split_on_column_value [[("a", Value.int 1)]] "a"
        [("a", Value.str "x")] = Except.ok l)
    ∧ ((∀ x ∈ [Value.int 1], valueTy x ≠ valueTy (Value.str "x")) →
        split_on_column_value [[("a", Value.int 1)]] "a"
          [("a", Value.str "x")] = Except.ok []) :=
  column_value_type_mismatch_empty [[("a", Value.int 1)]] "a"
    [("a", Value.str "x")] (Value.str "x") [Value.int 1] rfl rfl

/-- C9: the three convenience entry points are definitional refinements of
the general date-part splitter: `split_on_year` is `split_on_date_parts`
with `[YEAR]`, `split_on_year_and_month` with `[YEAR, MONTH]`, and
`split_on_year_and_month_and_day` with `[YEAR, MONTH, DAY]`. -/
theorem convenience_splitters_refine_date_parts (df : DataFrame) (c : String)
    (ids : List (String × ColumnBatchId)) :
    split_on_year df c ids =
        split_on_date_parts df c ids [DatePartArg.enumPart DatePart.year]
      ∧ split_on_year_and_month df c ids =
        split_on_date_parts df c ids
          [DatePartArg.enumPart DatePart.year,
            DatePartArg.enumPart DatePart.month]
      ∧ split_on_year_and_month_and_day df c ids =
        split_on_date_parts df c ids
          [DatePartArg.enumPart DatePart.year,
            DatePartArg.enumPart DatePart.month,
            DatePartArg.enumPart DatePart.day] :=
  ⟨rfl, rfl, rfl⟩

/-- C10: with `hash_digits = 0`, the suffix slice `[-1 * 0 :]` is the whole
string, so `split_on_hashed_column` compares the ENTIRE hex digest of each
row's stringified value against the identifier's `hash_value`: it computes
exactly the full-digest comparison (and in particular rows do not all match
an empty suffix). -/
theorem hashed_zero_digits_compares_full_digest (df : DataFrame) (c : String)
    (ids : List (String × Value)) (fn : String) :
    split_on_hashed_column df c 0 ids fn =
      split_on_hashed_column_full df c ids fn := by
  have hlam : hashedLambda fn 0 ids = (fun x => do
      let hv ← dictGet ids "hash_value"
      Except.ok (decide (Value.str (hexdigest fn (pyStr x)) = hv))) := by
    funext x
    have hs : pySliceFrom (hexdigest fn (pyStr x)) (-1 * 0) =
        hexdigest fn (pyStr x) := by
      simp [pySliceFrom, string_drop_zero]
    simp only [hashedLambda, hs]
  simp only [split_on_hashed_column, split_on_hashed_column_full, hlam]

end PolarsSplit
